import Mathlib

/-!
Shallow embedding of the hotelbeds-go client core: the custom JSON codec
layer (encoding.go, audit.go), the error-classification layer (errors.go)
and the pre-flight validation layer (booking DTOs).

Go strings are modelled as lists of characters (`GoStr`); the repository
only ever manipulates ASCII data, for which Go byte indexing and Lean
`List Char` indexing coincide.  Fallible Go code is modelled with `Option`
or with `GoResult`, whose `panic` constructor records a runtime panic
(index out of range, invalid slice bounds).
-/

abbrev GoStr := List Char

/-- Outcome of a Go function that may return an error or panic at runtime. -/
inductive GoResult (α : Type) where
  | ok (val : α)
  | goError (msg : GoStr)
  | panic
  deriving Repr, DecidableEq

/-- ASCII case folding, as `strings.ToLower` acts on the ASCII subset
(all catalog substrings and all claim inputs are ASCII). -/
def toLowerAscii (c : Char) : Char :=
  if 'A' ≤ c ∧ c ≤ 'Z' then Char.ofNat (c.toNat + 32) else c

/-- `strings.Contains s sub`: `sub` occurs as a contiguous substring of `s`. -/
def strContains (s sub : GoStr) : Bool :=
  (List.range (s.length + 1)).any fun i => sub.isPrefixOf (s.drop i)

namespace Hotelbeds

/-! ## errors.go: sentinel error values and the classification catalog -/

/-- The package-level sentinel error variables of errors.go.  Go compares
map keys of type `error` by identity, so the sentinels form an enumeration;
an `errors.New` performed at classification time is a fresh value distinct
from every sentinel even when the message text coincides. -/
inductive Sentinel where
  | errNoHealthyUpstream
  | errExternal
  | errRateLimitExceeded
  | errQuotaExceeded
  | errConfiguration
  | errSystem
  | errInvalidRequest
  | errInvalidData
  | errAllotmentExceeded
  | errInsufficientAllotment
  | errPriceHasIncreased
  | errPriceHasChanged
  | errStopSales
  | errBookingDoesNotExist
  | errBookingCannotBeCanceledAfterCheckIn
  | errBookingCannotBeCanceledOrModifiedWhenCheckInPast
  | errBookingCannotBeAmended
  | errBookingConfirmationError
  | errMinimumStayViolated
  | errCodeIsInvalid
  | errPleaseDoNotTryAgain
  | errHotelDoesNotAllowCancellation
  | errReservationUnreachable
  | errUndefined
  deriving Repr, DecidableEq

/-- The message text of each sentinel, exactly as in errors.go. -/
def Sentinel.msg : Sentinel → GoStr
  | .errNoHealthyUpstream => "no healthy upstead".toList
  | .errExternal => "external error".toList
  | .errRateLimitExceeded => "rate limits exceeded".toList
  | .errQuotaExceeded => "quota exceeded".toList
  | .errConfiguration => "configuration error".toList
  | .errSystem => "system error".toList
  | .errInvalidRequest => "invalid request".toList
  | .errInvalidData => "invalid data".toList
  | .errAllotmentExceeded => "allotment exceeded".toList
  | .errInsufficientAllotment => "insufficient allotment".toList
  | .errPriceHasIncreased => "price has increased".toList
  | .errPriceHasChanged => "price has changed".toList
  | .errStopSales => "stop sales".toList
  | .errBookingDoesNotExist => "booking does not exist".toList
  | .errBookingCannotBeCanceledAfterCheckIn => "cannot cancel a booking after the check-in".toList
  | .errBookingCannotBeCanceledOrModifiedWhenCheckInPast =>
      "cannot cancel/modify a booking which has a check-in date in the past".toList
  | .errBookingCannotBeAmended => "this booking cannot be amended".toList
  | .errBookingConfirmationError => "booking confirmation error".toList
  | .errMinimumStayViolated => "minimum stay violated".toList
  | .errCodeIsInvalid => "code is invalid".toList
  | .errPleaseDoNotTryAgain => "please do not retry again".toList
  | .errHotelDoesNotAllowCancellation => "hotel does not allow cancellations".toList
  | .errReservationUnreachable =>
      "reservation does not exist or the agency does not access".toList
  | .errUndefined => "undefined error".toList

/-- The structured `Error` value of errors.go.  `audit` keeps the raw
`auditData` JSON member; `code` is the `ErrorCode` string. -/
structure GoError where
  audit : Option Unit
  code : GoStr
  message : GoStr
  statusCode : Nat
  isRetryable : Bool
  deriving Repr, DecidableEq

/-- The `ValidationError` struct of errors.go, produced by the pre-flight
validation layer.  Fields keep the source order; absent fields keep the Go
zero value. -/
structure ValidationError where
  required : Bool := false
  fieldName : String := ""
  min : Int := 0
  max : Int := 0
  allow : List String := []
  deriving Repr, DecidableEq

/-- A Go `error` value as produced by this package: a package sentinel, a
fresh `errors.New` allocation, a `*Error`, or a `*ValidationError`.
Distinct constructors are never identical, mirroring pointer identity. -/
inductive GoErrVal where
  | sentinel (s : Sentinel)
  | fresh (msg : GoStr)
  | structured (e : GoError)
  | validation (v : ValidationError)
  deriving Repr, DecidableEq

/-- `errorContains` of errors.go: lower-case `s`, then test substring
containment of the sentinel message. -/
def errorContains (s : GoStr) (e : Sentinel) : Bool :=
  strContains (s.map toLowerAscii) e.msg

/-- `decodeErrorMessage` of errors.go: first matching catalog entry, in
source order; the default branch allocates a fresh "undefined error". -/
def decodeErrorMessage (msg : GoStr) : GoErrVal :=
  if errorContains msg .errExternal then .sentinel .errExternal
  else if errorContains msg .errRateLimitExceeded then .sentinel .errRateLimitExceeded
  else if errorContains msg .errQuotaExceeded then .sentinel .errQuotaExceeded
  else if errorContains msg .errConfiguration then .sentinel .errConfiguration
  else if errorContains msg .errSystem then .sentinel .errSystem
  else if errorContains msg .errInvalidRequest then .sentinel .errInvalidRequest
  else if errorContains msg .errInvalidData then .sentinel .errInvalidData
  else if errorContains msg .errAllotmentExceeded then .sentinel .errAllotmentExceeded
  else if errorContains msg .errInsufficientAllotment then .sentinel .errInsufficientAllotment
  else if errorContains msg .errPriceHasIncreased then .sentinel .errPriceHasIncreased
  else if errorContains msg .errPriceHasChanged then .sentinel .errPriceHasChanged
  else if errorContains msg .errStopSales then .sentinel .errStopSales
  else if errorContains msg .errBookingDoesNotExist then .sentinel .errBookingDoesNotExist
  else if errorContains msg .errBookingCannotBeCanceledAfterCheckIn then
    .sentinel .errBookingCannotBeCanceledAfterCheckIn
  else if errorContains msg .errBookingCannotBeCanceledOrModifiedWhenCheckInPast then
    .sentinel .errBookingCannotBeCanceledOrModifiedWhenCheckInPast
  else if errorContains msg .errBookingCannotBeAmended then .sentinel .errBookingCannotBeAmended
  else if errorContains msg .errBookingConfirmationError then
    .sentinel .errBookingConfirmationError
  else if errorContains msg .errMinimumStayViolated then .sentinel .errMinimumStayViolated
  else if errorContains msg .errCodeIsInvalid then .sentinel .errCodeIsInvalid
  else if errorContains msg .errPleaseDoNotTryAgain then .sentinel .errPleaseDoNotTryAgain
  else if errorContains msg .errHotelDoesNotAllowCancellation then
    .sentinel .errHotelDoesNotAllowCancellation
  else if errorContains msg .errReservationUnreachable then .sentinel .errReservationUnreachable
  else .fresh "undefined error".toList

/-- The `isRetryableError` map of errors.go, keyed by sentinel identity:
only `ErrRateLimitExceeded` and `ErrQuotaExceeded` map to true; every
other error value (including a fresh "undefined error") is absent and the
comma-ok lookup yields false. -/
def isRetryableError (e : GoErrVal) : Bool :=
  match e with
  | .sentinel .errRateLimitExceeded => true
  | .sentinel .errQuotaExceeded => true
  | _ => false

/-- `IsErrorRetryable` of errors.go: the type assertion to `*Error`
succeeds only for structured errors; otherwise false. -/
def IsErrorRetryable (e : GoErrVal) : Bool :=
  match e with
  | .structured err => err.isRetryable
  | _ => false

/-! ## decodeError: the two-shape error-body decoder -/

/-- A parsed JSON value.  Numbers are kept as integers: no error body in
scope carries a fractional number, and the decoder under study never reads
a numeric member except to fail on its type. -/
inductive Json where
  | null
  | bool (b : Bool)
  | num (n : Int)
  | str (s : GoStr)
  | arr (elems : List Json)
  | obj (members : List (GoStr × Json))

/-- Go encoding/json matches object member names to struct fields
case-insensitively (ASCII suffices here). -/
def jsonNameMatches (key field : GoStr) : Bool :=
  key.map toLowerAscii == field

/-- The JSON tag of the single field of the `shortError` struct. -/
def errorFieldName : GoStr := "error".toList

/-- Walk of the object members while decoding into `shortError`: unknown
members are ignored, a member matching the "error" field must hold a
string (a null leaves the current value), anything else is a type error
that makes the whole Decode fail. -/
def shortErrorLoop (acc : GoStr) : List (GoStr × Json) → Except Unit GoStr
  | [] => .ok acc
  | kv :: rest =>
    if jsonNameMatches kv.1 errorFieldName then
      match kv.2 with
      | .str s => shortErrorLoop s rest
      | .null => shortErrorLoop acc rest
      | _ => .error ()
    else
      shortErrorLoop acc rest

/-- Decoding one JSON value into the `shortError` struct of errors.go
(single string field tagged "error"), with Go semantics: a `null` value
leaves the zero value; an object is walked member by member; any other
top-level value is a type error. -/
def decodeShortError (v : Json) : Except Unit GoStr :=
  match v with
  | .null => .ok []
  | .obj members => shortErrorLoop [] members
  | _ => .error ()

/-- `decodeError` of errors.go, for a response whose body holds at most
one JSON value (`none` models a body that is not well-formed JSON).  The
first `json.NewDecoder(resp.Body).Decode` consumes the entire value from
the stream; when it fails, the second decoder reads from the exhausted
stream, fails with EOF, and the function falls through to `ErrUndefined`.
When the first decode succeeds the function builds an `Error` carrying
the short message, the HTTP status code and the retryability derived from
the message catalog. -/
def decodeError (body : Option Json) (statusCode : Nat) : GoErrVal :=
  match body with
  | some v =>
    match decodeShortError v with
    | .ok shortMsg =>
      .structured
        { audit := none
          code := []
          message := shortMsg
          statusCode := statusCode
          isRetryable := isRetryableError (decodeErrorMessage shortMsg) }
    | .error _ => .sentinel .errUndefined
  | none => .sentinel .errUndefined

end Hotelbeds

namespace Hotelbeds

/-- The shape-A body of claim C1, with member "error". -/
def rateLimitShapeABody : Json :=
  .obj [("error".toList, .str "rate limit exceeded for client".toList)]

/-- The shape-B body of claim C2, with members "code" and "message". -/
def productShapeBBody : Json :=
  .obj [("code".toList, .str "PRODUCT_ERROR".toList),
        ("message".toList, .str "booking does not exist".toList)]

/-- The unknown-shape body of claim C3. -/
def unexpectedShapeBody : Json :=
  .obj [("unexpected".toList, .str "shape".toList)]

/-- The shape-A body whose message does contain the catalog phrase
"rate limits exceeded". -/
def rateLimitsShapeABody : Json :=
  .obj [("error".toList, .str "rate limits exceeded for client".toList)]

/-- Does a JSON value carry an object member whose name Go would match to
the struct field tagged "error"? -/
def jsonHasErrorMember : Json → Bool
  | .obj members => members.any fun kv => jsonNameMatches kv.1 errorFieldName
  | _ => false

/-- Lifted to an optional (possibly malformed) body. -/
def bodyHasErrorMember : Option Json → Bool
  | some v => jsonHasErrorMember v
  | none => false

/-! ## Shared string and number primitives of the Go standard library -/

/-- `strings.Split` generalised to a predicate on the separator byte;
`goSplit` below instantiates it with a single separator character.
On the empty string this yields one empty segment, as in Go. -/
def goSplitP (p : Char → Bool) : GoStr → List GoStr
  | [] => [[]]
  | c :: cs =>
    if p c then [] :: goSplitP p cs
    else
      match goSplitP p cs with
      | [] => [[c]]
      | g :: gs => (c :: g) :: gs

/-- `strings.Split s sep` for a one-byte separator. -/
def goSplit (sep : Char) (l : GoStr) : List GoStr :=
  goSplitP (fun c => c == sep) l

/-- `strings.Join` with a one-byte separator. -/
def goJoin (sep : Char) : List GoStr → GoStr
  | [] => []
  | [x] => x
  | x :: xs => x ++ sep :: goJoin sep xs

/-- `bytes.Count data sep` for a one-byte separator: the number of
occurrences of the byte. -/
def countChar (sep : Char) (l : GoStr) : Nat :=
  l.countP (fun c => c == sep)

def isGoDigit (c : Char) : Bool :=
  decide ('0' ≤ c) && decide (c ≤ '9')

/-- Numeric value of an ASCII digit ('0' is byte 48). -/
def charVal (c : Char) : Nat := c.toNat - 48

/-- Value of a most-significant-first run of ASCII digits. -/
def digitsVal (l : GoStr) : Nat :=
  l.foldl (fun a c => a * 10 + charVal c) 0

/-- A non-empty all-digit run, as required by the Go integer parsers. -/
def parseNatDigits (l : GoStr) : Option Nat :=
  if l.isEmpty then none
  else if l.all isGoDigit then some (digitsVal l) else none

/-- Base-10 signed integer syntax shared by `strconv.Atoi`,
`strconv.ParseInt` and `big.Int.SetString`: an optional sign followed by
at least one digit.  The 64-bit overflow check of strconv is not
modelled; every integer handled by the claims is small. -/
def parseGoInt (l : GoStr) : Option Int :=
  match l with
  | [] => none
  | c :: r =>
    if c = '+' then (parseNatDigits r).map Int.ofNat
    else if c = '-' then (parseNatDigits r).map fun n => -(n : Int)
    else (parseNatDigits (c :: r)).map Int.ofNat

/-- `strconv.Atoi`. -/
def goAtoi (l : GoStr) : Option Int := parseGoInt l

/-- Base-10 digits of `n`, least significant first, by fuelled structural
recursion (`Nat.digits` itself is well-founded recursion, which the
kernel cannot evaluate); a fuel of `n` always suffices. -/
def natDigitsAux : Nat → Nat → List Nat
  | 0, _ => []
  | fuel + 1, n => if n = 0 then [] else n % 10 :: natDigitsAux fuel (n / 10)

def natDigits (n : Nat) : List Nat := natDigitsAux n n

/-- Decimal digit string of a natural number, as Go prints it. -/
def natDecRepr (n : Nat) : GoStr :=
  if n = 0 then ['0'] else ((natDigits n).reverse.map Nat.digitChar)

/-- `strconv.Itoa`. -/
def intRepr (i : Int) : GoStr :=
  if i < 0 then '-' :: natDecRepr i.natAbs else natDecRepr i.natAbs

/-- Zero-pad a number to width `w`, as Go's time formatter does; numbers
too wide keep all their digits. -/
def padNat (w n : Nat) : GoStr :=
  List.replicate (w - (natDecRepr n).length) '0' ++ natDecRepr n

/-- A byte the fast path of `strconv.Unquote` accepts inside a
double-quoted string without escape processing. -/
def charSafeUnquoted (c : Char) : Bool :=
  !(c == '"' || c == '\\' || c == '\n')

/-- `strconv.Unquote`, on the fragment of its domain this repository
exercises: a double-quoted string whose interior needs no escape
processing.  Backquoted and single-quoted literals and escape sequences
are not modelled; no adapter in scope ever receives them. -/
def goUnquote (s : GoStr) : Option GoStr :=
  match s with
  | [] => none
  | c :: rest =>
    if c = '"' && rest.getLast? == some '"' && rest.dropLast.all charSafeUnquoted then
      some rest.dropLast
    else none

/-- `trimUnescapeQuotes` of encoding.go: try `strconv.Unquote`, fall back
to the raw bytes, then inspect `str[0]` — a panic when `str` is empty —
and slice `str[1 : len(str)-1]` when the first byte is a quote — a panic
when `str` has exactly one byte. -/
def trimUnescapeQuotes (data : GoStr) : GoResult GoStr :=
  match (goUnquote data).getD data with
  | [] => .panic
  | c :: rest =>
    if c = '"' then (if rest.isEmpty then .panic else .ok rest.dropLast)
    else .ok (c :: rest)

/-! ## The scalar adapters of encoding.go and audit.go -/

/-- Outcome of an `UnmarshalJSON` call on a pointer receiver. -/
inductive Unmarshal (α : Type) where
  | assigned (val : α)
  | unchanged
  | failed
  | panicked
  deriving Repr, DecidableEq

/-- A shopspring decimal: `value * 10 ^ exp`. -/
structure GoDecimal where
  value : Int
  exp : Int
  deriving Repr, DecidableEq

/-- The mantissa step of `decimal.NewFromString`: at most one '.', whose
two digit runs concatenate into a big integer; `e` is the exponent taken
from the scientific-notation suffix. -/
def decimalParseBase (base : GoStr) (e : Int) : Option GoDecimal :=
  match goSplit '.' base with
  | [ip] => (parseGoInt ip).map fun v => ⟨v, e⟩
  | [ip, fp] => (parseGoInt (ip ++ fp)).map fun v => ⟨v, e - fp.length⟩
  | _ => none

/-- `decimal.NewFromString`: split off an exponent introduced by the
first 'e' or 'E', then parse the mantissa.  The int32 range check on the
exponent is not modelled. -/
def decimalNewFromString (s : GoStr) : Option GoDecimal :=
  match goSplitP (fun c => c == 'e' || c == 'E') s with
  | [base] => decimalParseBase base 0
  | [base, epart] => (parseGoInt epart).bind fun ei => decimalParseBase base ei
  | _ => none

/-- Rescale a decimal to exponent -2 with shopspring's `Round`:
half away from zero. -/
def decimalRescaleNeg2 (d : GoDecimal) : Int :=
  if -2 ≤ d.exp then d.value * (10 : Int) ^ (d.exp + 2).toNat
  else
    let p := 10 ^ (-2 - d.exp).toNat
    let q : Nat := (d.value.natAbs + p / 2) / p
    if d.value < 0 then -(q : Int) else (q : Int)

/-- `decimal.Decimal.StringFixed(2)`: round to two fraction digits and
print with exactly two fraction digits, unquoted. -/
def stringFixed2 (d : GoDecimal) : GoStr :=
  (if decimalRescaleNeg2 d < 0 then ['-'] else []) ++
    natDecRepr ((decimalRescaleNeg2 d).natAbs / 100) ++
    '.' :: padNat 2 ((decimalRescaleNeg2 d).natAbs % 100)

/-- `Amount.MarshalJSON`: the fixed two-decimal string, bare. -/
def Amount.MarshalJSON (a : GoDecimal) : GoStr := stringFixed2 a

/-- `Amount.UnmarshalJSON`: trim quotes, then `decimal.NewFromString`. -/
def Amount.UnmarshalJSON (data : GoStr) : Unmarshal GoDecimal :=
  match trimUnescapeQuotes data with
  | .panic => .panicked
  | .goError _ => .failed
  | .ok str =>
    match decimalNewFromString str with
    | some d => .assigned d
    | none => .failed

/-- `strconv.ParseFloat`, on the decimal fragment of its grammar: an
optional sign, digits with at most one '.', an optional exponent.  The
value is kept as an exact rational; IEEE-754 rounding, hex floats, and
inf/nan spellings are not modelled — no claim observes a parsed float
value, only success, failure or panic of the surrounding adapter. -/
def goParseFloat (s : GoStr) : Option ℚ :=
  let mantissa : GoStr → Option (Nat × Nat) := fun m =>
    match goSplit '.' m with
    | [ip] =>
      if !ip.isEmpty && ip.all isGoDigit then some (digitsVal ip, 0) else none
    | [ip, fp] =>
      if (!ip.isEmpty || !fp.isEmpty) && ip.all isGoDigit && fp.all isGoDigit then
        some (digitsVal ip * 10 ^ fp.length + digitsVal fp, fp.length)
      else none
    | _ => none
  let signed : Bool → GoStr → Option ℚ := fun neg body =>
    let withExp : GoStr → Int → Option ℚ := fun m e =>
      (mantissa m).map fun nv =>
        (if neg then -1 else 1) * (nv.1 : ℚ) / 10 ^ nv.2 * (10 : ℚ) ^ e
    match goSplitP (fun c => c == 'e' || c == 'E') body with
    | [m] => withExp m 0
    | [m, ex] => (parseGoInt ex).bind fun ei => withExp m ei
    | _ => none
  match s with
  | '+' :: r => signed false r
  | '-' :: r => signed true r
  | _ => signed false s

/-- `Coordinate.UnmarshalJSON`: trim quotes, `strconv.ParseFloat`. -/
def Coordinate.UnmarshalJSON (data : GoStr) : Unmarshal ℚ :=
  match trimUnescapeQuotes data with
  | .panic => .panicked
  | .goError _ => .failed
  | .ok str =>
    match goParseFloat str with
    | some f => .assigned f
    | none => .failed

/-- `Distance.UnmarshalJSON`: same shape as Coordinate. -/
def Distance.UnmarshalJSON (data : GoStr) : Unmarshal ℚ :=
  match trimUnescapeQuotes data with
  | .panic => .panicked
  | .goError _ => .failed
  | .ok str =>
    match goParseFloat str with
    | some f => .assigned f
    | none => .failed

/-- `FloatRate.UnmarshalJSON`: same shape as Coordinate. -/
def FloatRate.UnmarshalJSON (data : GoStr) : Unmarshal ℚ :=
  match trimUnescapeQuotes data with
  | .panic => .panicked
  | .goError _ => .failed
  | .ok str =>
    match goParseFloat str with
    | some f => .assigned f
    | none => .failed

/-- `Order.UnmarshalJSON`: trim quotes, `strconv.Atoi`. -/
def Order.UnmarshalJSON (data : GoStr) : Unmarshal Int :=
  match trimUnescapeQuotes data with
  | .panic => .panicked
  | .goError _ => .failed
  | .ok str =>
    match goAtoi str with
    | some n => .assigned n
    | none => .failed

/-- `ProcessTime.UnmarshalJSON` of audit.go: trim quotes,
`strconv.Atoi`. -/
def ProcessTime.UnmarshalJSON (data : GoStr) : Unmarshal Int :=
  match trimUnescapeQuotes data with
  | .panic => .panicked
  | .goError _ => .failed
  | .ok str =>
    match goAtoi str with
    | some n => .assigned n
    | none => .failed

/-- `CommaSliceString.MarshalJSON` of audit.go: join with ',' and wrap in
quotes. -/
def CommaSliceString.MarshalJSON (s : List GoStr) : GoStr :=
  '"' :: goJoin ',' s ++ ['"']

/-- `CommaSliceString.UnmarshalJSON` of audit.go: an empty input leaves
the receiver unchanged; otherwise split the RAW bytes — quotes included —
on ','. -/
def CommaSliceString.UnmarshalJSON (data : GoStr) : Unmarshal (List GoStr) :=
  if data.isEmpty then .unchanged
  else .assigned (goSplit ',' data)

/-- `CommaSliceInt.MarshalJSON` of audit.go: write each value followed by
',' into a builder, then slice off the final byte — a panic on the empty
slice, where the builder is empty and the slice bound is -1. -/
def CommaSliceInt.MarshalJSON (s : List Int) : GoResult GoStr :=
  if s.isEmpty then .panic
  else .ok ('"' :: goJoin ',' (s.map intRepr) ++ ['"'])

/-- The decode loop of `CommaSliceInt.UnmarshalJSON`: the target slice
has `cap` slots (`bytes.Count(data, ",")` — one fewer than the number of
segments); each segment is parsed with Atoi, whose error aborts the whole
decode, and then written at index `i`, a panic once `i` reaches `cap`. -/
def commaSliceIntLoop (cap : Nat) : Nat → List Int → List GoStr → Unmarshal (List Int)
  | i, acc, [] => .assigned (acc ++ List.replicate (cap - i) 0)
  | i, acc, e :: rest =>
    match goAtoi e with
    | none => .failed
    | some n =>
      if i < cap then commaSliceIntLoop cap (i + 1) (acc ++ [n]) rest
      else .panicked

/-- `CommaSliceInt.UnmarshalJSON` of audit.go. -/
def CommaSliceInt.UnmarshalJSON (data : GoStr) : Unmarshal (List Int) :=
  if data.isEmpty then .unchanged
  else
    match trimUnescapeQuotes data with
    | .panic => .panicked
    | .goError _ => .failed
    | .ok str => commaSliceIntLoop (countChar ',' data) 0 [] (goSplit ',' str)

/-! ## The three date/time layouts of encoding.go

Values are wall-clock records; the Go `time.Time` monotonic clock and
location structure is irrelevant to the layouts under study. -/

def isLeapYear (y : Nat) : Bool :=
  y % 4 == 0 && (y % 100 != 0 || y % 400 == 0)

def daysInMonth (y m : Nat) : Nat :=
  if m = 2 then (if isLeapYear y then 29 else 28)
  else if m = 4 ∨ m = 6 ∨ m = 9 ∨ m = 11 then 30
  else 31

/-- A `Datetime` value (layout 2006-01-02). -/
structure GoDate where
  year : Nat
  month : Nat
  day : Nat
  deriving Repr, DecidableEq

/-- The dates the 4-digit-year layout represents faithfully and
`time.Parse` accepts. -/
def GoDate.valid (d : GoDate) : Bool :=
  d.year ≤ 9999 && 1 ≤ d.month && d.month ≤ 12 &&
    1 ≤ d.day && d.day ≤ daysInMonth d.year d.month

/-- A `Timestamp` value (layout 2006-01-02 15:04:05.000, millisecond
precision). -/
structure GoTimestamp where
  year : Nat
  month : Nat
  day : Nat
  hour : Nat
  minute : Nat
  second : Nat
  milli : Nat
  deriving Repr, DecidableEq

def GoTimestamp.date (t : GoTimestamp) : GoDate := ⟨t.year, t.month, t.day⟩

def GoTimestamp.valid (t : GoTimestamp) : Bool :=
  t.date.valid && t.hour ≤ 23 && t.minute ≤ 59 && t.second ≤ 59 && t.milli ≤ 999

/-- A `TimestampTZ` value (RFC 3339, second precision); `offset` is the
zone offset in minutes. -/
structure GoTimestampTZ where
  year : Nat
  month : Nat
  day : Nat
  hour : Nat
  minute : Nat
  second : Nat
  offset : Int
  deriving Repr, DecidableEq

def GoTimestampTZ.date (t : GoTimestampTZ) : GoDate := ⟨t.year, t.month, t.day⟩

def GoTimestampTZ.valid (t : GoTimestampTZ) : Bool :=
  t.date.valid && t.hour ≤ 23 && t.minute ≤ 59 && t.second ≤ 59 &&
    -(23 * 60 + 59) ≤ t.offset && t.offset ≤ 23 * 60 + 59

/-- The yyyy-mm-dd body shared by all three layouts. -/
def fmtDate (y m d : Nat) : GoStr :=
  padNat 4 y ++ '-' :: padNat 2 m ++ '-' :: padNat 2 d

/-- The hh:mm:ss body shared by the two timestamp layouts. -/
def fmtClock (h mi s : Nat) : GoStr :=
  padNat 2 h ++ ':' :: padNat 2 mi ++ ':' :: padNat 2 s

/-- The RFC 3339 zone suffix: Z for a zero offset, else a signed hh:mm. -/
def fmtOffset (off : Int) : GoStr :=
  if off = 0 then ['Z']
  else
    (if off < 0 then '-' else '+') ::
      padNat 2 (off.natAbs / 60) ++ ':' :: padNat 2 (off.natAbs % 60)

/-- `Datetime.MarshalJSON`: format with layout 2006-01-02 and quote. -/
def Datetime.MarshalJSON (d : GoDate) : GoStr :=
  '"' :: fmtDate d.year d.month d.day ++ ['"']

/-- `Timestamp.MarshalJSON`: layout 2006-01-02 15:04:05.000, quoted. -/
def Timestamp.MarshalJSON (t : GoTimestamp) : GoStr :=
  '"' :: (fmtDate t.year t.month t.day ++
    ' ' :: (fmtClock t.hour t.minute t.second ++ '.' :: padNat 3 t.milli)) ++ ['"']

/-- `TimestampTZ.MarshalJSON`: RFC 3339, quoted. -/
def TimestampTZ.MarshalJSON (t : GoTimestampTZ) : GoStr :=
  '"' :: (fmtDate t.year t.month t.day ++
    'T' :: (fmtClock t.hour t.minute t.second ++ fmtOffset t.offset)) ++ ['"']

/-- Go's fixed-width number element in `time.Parse`: exactly `w` digit
bytes. -/
def getnumFixed (w : Nat) (l : GoStr) : Option (Nat × GoStr) :=
  if (l.take w).length = w && (l.take w).all isGoDigit then
    some (digitsVal (l.take w), l.drop w)
  else none

/-- A literal layout byte must match the next input byte. -/
def expectChar (c : Char) : GoStr → Option GoStr
  | [] => none
  | x :: rest => if x = c then some rest else none

/-- Parse the yyyy-mm-dd prefix of all three layouts. -/
def parseDatePart (l : GoStr) : Option (Nat × Nat × Nat × GoStr) := do
  let (y, r1) ← getnumFixed 4 l
  let r2 ← expectChar '-' r1
  let (m, r3) ← getnumFixed 2 r2
  let r4 ← expectChar '-' r3
  let (d, r5) ← getnumFixed 2 r4
  some (y, m, d, r5)

/-- Parse the hh:mm:ss body of the two timestamp layouts. -/
def parseClockPart (l : GoStr) : Option (Nat × Nat × Nat × GoStr) := do
  let (h, r1) ← getnumFixed 2 l
  let r2 ← expectChar ':' r1
  let (mi, r3) ← getnumFixed 2 r2
  let r4 ← expectChar ':' r3
  let (s, r5) ← getnumFixed 2 r4
  some (h, mi, s, r5)

/-- The hh:mm body of a numeric RFC 3339 zone offset, in minutes. -/
def parseClockOffset (r : GoStr) : Option (Nat × GoStr) := do
  let (h, r1) ← getnumFixed 2 r
  let r2 ← expectChar ':' r1
  let (m, r3) ← getnumFixed 2 r2
  some (h * 60 + m, r3)

/-- Parse the RFC 3339 zone suffix. -/
def parseOffset (l : GoStr) : Option (Int × GoStr) :=
  match l with
  | [] => none
  | c :: rest =>
    if c = 'Z' then some (0, rest)
    else if c = '+' then (parseClockOffset rest).map fun hm => ((hm.1 : Int), hm.2)
    else if c = '-' then (parseClockOffset rest).map fun hm => (-(hm.1 : Int), hm.2)
    else none

/-- `time.Parse` with layout 2006-01-02: the structural parse must
consume the whole input, then month and day are range-checked. -/
def goParseDatetime (l : GoStr) : Option GoDate :=
  match parseDatePart l with
  | some (y, m, d, rest) =>
    if rest.isEmpty && GoDate.valid ⟨y, m, d⟩ then some ⟨y, m, d⟩ else none
  | none => none

/-- `time.Parse` with layout 2006-01-02 15:04:05.000. -/
def goParseTimestamp (l : GoStr) : Option GoTimestamp :=
  match parseDatePart l with
  | some (y, m, d, r1) =>
    match expectChar ' ' r1 with
    | some r2 =>
      match parseClockPart r2 with
      | some (h, mi, s, r3) =>
        match expectChar '.' r3 with
        | some r4 =>
          match getnumFixed 3 r4 with
          | some (ms, r5) =>
            if r5.isEmpty && GoTimestamp.valid ⟨y, m, d, h, mi, s, ms⟩ then
              some ⟨y, m, d, h, mi, s, ms⟩
            else none
          | none => none
        | none => none
      | none => none
    | none => none
  | none => none

/-- `time.Parse` with the RFC 3339 layout.  (Go additionally accepts
optional fractional seconds after the seconds element; no input in scope
carries them.) -/
def goParseTimestampTZ (l : GoStr) : Option GoTimestampTZ :=
  match parseDatePart l with
  | some (y, m, d, r1) =>
    match expectChar 'T' r1 with
    | some r2 =>
      match parseClockPart r2 with
      | some (h, mi, s, r3) =>
        match parseOffset r3 with
        | some (off, r4) =>
          if r4.isEmpty && GoTimestampTZ.valid ⟨y, m, d, h, mi, s, off⟩ then
            some ⟨y, m, d, h, mi, s, off⟩
          else none
        | none => none
      | none => none
    | none => none
  | none => none

/-- `Datetime.UnmarshalJSON`: trim quotes, parse layout 2006-01-02. -/
def Datetime.UnmarshalJSON (data : GoStr) : Unmarshal GoDate :=
  match trimUnescapeQuotes data with
  | .panic => .panicked
  | .goError _ => .failed
  | .ok str =>
    match goParseDatetime str with
    | some d => .assigned d
    | none => .failed

/-- `Timestamp.UnmarshalJSON`: trim quotes, parse the millisecond
layout. -/
def Timestamp.UnmarshalJSON (data : GoStr) : Unmarshal GoTimestamp :=
  match trimUnescapeQuotes data with
  | .panic => .panicked
  | .goError _ => .failed
  | .ok str =>
    match goParseTimestamp str with
    | some t => .assigned t
    | none => .failed

/-- `TimestampTZ.UnmarshalJSON`: trim quotes, parse RFC 3339. -/
def TimestampTZ.UnmarshalJSON (data : GoStr) : Unmarshal GoTimestampTZ :=
  match trimUnescapeQuotes data with
  | .panic => .panicked
  | .goError _ => .failed
  | .ok str =>
    match goParseTimestampTZ str with
    | some t => .assigned t
    | none => .failed

/-! ## The validation layer of the booking DTOs

Only the fields each `Validate` reads are modelled; the remaining DTO
fields are payload the validators never inspect.  Go float64 coordinate
fields are modelled as exact rationals: the validators only compare them
with 0. -/

/-- The `Stay` aggregate. -/
structure Stay where
  checkIn : String
  checkOut : String
  shiftDays : Int
  allowOnlyShift : Option Bool := none
  deriving Repr, DecidableEq

/-- `Stay.Validate`: shiftDays above 5 is rejected with a plain
`errors.New`. -/
def Stay.Validate (stay : Stay) : Option GoErrVal :=
  if stay.shiftDays > 5 then
    some (.fresh "ShiftDays is invalid (should <=5)".toList)
  else none

/-- The `Geolocation` aggregate. -/
structure Geolocation where
  latitude : ℚ
  longitude : ℚ
  radius : Int
  unit : String
  deriving Repr, DecidableEq

/-- `Geolocation.Validate`, checks in source order: latitude required,
longitude required, radius at most 200, unit in the two-element enum
(empty allowed). -/
def Geolocation.Validate (geo : Geolocation) : Option GoErrVal :=
  if geo.latitude = 0 then
    some (.validation { fieldName := "Latitude", required := true })
  else if geo.longitude = 0 then
    some (.validation { fieldName := "Longitude", required := true })
  else if geo.radius > 200 then
    some (.validation { fieldName := "Radius", min := 0, max := 200 })
  else if geo.unit ≠ "" ∧ geo.unit ≠ "mi" ∧ geo.unit ≠ "km" then
    some (.validation { fieldName := "Unit", allow := ["mi", "km"] })
  else none

/-- The `Filter` aggregate (the two float rate fields are never read by
`Validate` and are omitted). -/
structure Filter where
  maxHotels : Int
  maxRooms : Int
  maxRatesPerRoom : Int := 0
  minCategory : Int
  maxCategory : Int
  deriving Repr, DecidableEq

/-- `Filter.Validate`, checks in source order. -/
def Filter.Validate (filter : Filter) : Option GoErrVal :=
  if filter.maxHotels < 1 ∨ filter.maxHotels > 2000 then
    some (.validation { fieldName := "MaxHotels", min := 1, max := 2000 })
  else if filter.maxRooms < 1 ∨ filter.maxRooms > 50 then
    some (.validation { fieldName := "MaxRooms", min := 1, max := 50 })
  else if filter.minCategory < 1 ∨ filter.minCategory > 5 then
    some (.validation { fieldName := "MinCategory", min := 1, max := 5 })
  else if filter.maxCategory < 1 ∨ filter.maxCategory > 5 then
    some (.validation { fieldName := "MaxCategory", min := 1, max := 5 })
  else none

/-- The `FilterHotel` aggregate. -/
structure FilterHotel where
  hotelCodes : List Int
  deriving Repr, DecidableEq

/-- `FilterHotel.Validate`. -/
def FilterHotel.Validate (f : FilterHotel) : Option GoErrVal :=
  if f.hotelCodes.length > 2000 then
    some (.validation { fieldName := "FilterHotel.Hotel", max := 2000 })
  else none

/-- `ListAvailableHotelsInput`, restricted to the fields its `Validate`
reads (the occupancy, keyword, board, room and presentation fields are
payload the validator never inspects). -/
structure ListAvailableHotelsInput where
  stay : Stay
  geolocation : Option Geolocation := none
  filter : Option Filter := none
  hotels : FilterHotel
  deriving Repr, DecidableEq

/-- `ListAvailableHotelsInput.Validate`: stay first, then the optional
filter, then the hotel filter; the first failure wins.  (Geolocation is
never validated here.) -/
def ListAvailableHotelsInput.Validate (inp : ListAvailableHotelsInput) : Option GoErrVal :=
  match inp.stay.Validate with
  | some e => some e
  | none =>
    match inp.filter.bind Filter.Validate with
    | some e => some e
    | none => inp.hotels.Validate

/-- Outcome of an API method: rejected before any network dispatch, or
handed to the HTTP transport. -/
inductive CallOutcome where
  | rejected (e : GoErrVal)
  | dispatched
  deriving Repr, DecidableEq

/-- `API.ListAvailableHotels`: validate, returning the validation error
before any request is built; only a valid input reaches the transport. -/
def ListAvailableHotels (inp : ListAvailableHotelsInput) : CallOutcome :=
  match inp.Validate with
  | some e => .rejected e
  | none => .dispatched

/-! ## Helper shapes used in the statements about the claims -/

/-- Prepend the stray opening quote to the first element. -/
def addHeadQuote : List GoStr → List GoStr
  | [] => []
  | x :: xs => ('"' :: x) :: xs

/-- Append the stray closing quote to the last element. -/
def addLastQuote : List GoStr → List GoStr
  | [] => []
  | [x] => [x ++ ['"']]
  | x :: xs => x :: addLastQuote xs

/-- The canonical fixed-two-fraction-digit decimal string: an optional
minus sign, the digits of the integer part without leading zeros, a
point, and exactly two fraction digits. -/
def canonicalMoney (neg : Bool) (ip f : Nat) : GoStr :=
  (if neg then ['-'] else []) ++ natDecRepr ip ++ '.' :: padNat 2 f

/-- The signed integer scaled by 100 that the canonical string denotes. -/
def moneyVal (neg : Bool) (ip f : Nat) : Int :=
  (if neg then -1 else 1) * (ip * 100 + f)

/-- On an object without an "error" member, the short decode succeeds and
leaves the zero value of the field, as Go ignores unknown members. -/
theorem decodeShortError_obj_of_noErrorMember (ms : List (GoStr × Json))
    (h : (ms.any fun kv => jsonNameMatches kv.1 errorFieldName) = false) :
    decodeShortError (.obj ms) = .ok [] := by
  show shortErrorLoop [] ms = _
  induction ms with
  | nil => rfl
  | cons kv rest ih =>
    simp only [List.any_cons, Bool.or_eq_false_iff] at h
    rw [shortErrorLoop, if_neg (by simp [h.1])]
    exact ih h.2

end Hotelbeds

open Hotelbeds

/-- C1 counterexample: on the shape-A body with message
"rate limit exceeded for client", decodeError classifies the message as a
fresh undefined error (the catalog phrase is "rate limits exceeded", which
the message does not contain) and returns a non-retryable Error, so the
claimed rate-limit classification with IsRetryable true does not hold. -/
theorem C1_counterexample :
    decodeErrorMessage "rate limit exceeded for client".toList =
      .fresh "undefined error".toList ∧
    decodeError (some rateLimitShapeABody) 429 =
      .structured
        { audit := none, code := [], message := "rate limit exceeded for client".toList
          statusCode := 429, isRetryable := false } := by
  constructor
  · decide
  · decide

/-- C1 (amended): for a shape-A error body whose message contains the
catalog phrase "rate limits exceeded" (for example
"rate limits exceeded for client"), decodeError classifies the message as
ErrRateLimitExceeded and returns an Error with IsRetryable true; the
literal message "rate limit exceeded for client" of the original claim is
instead classified as undefined and non-retryable. -/
theorem C1_rate_limit_classification :
    decodeErrorMessage "rate limits exceeded for client".toList =
      .sentinel .errRateLimitExceeded ∧
    decodeError (some rateLimitsShapeABody) 429 =
      .structured
        { audit := none, code := [], message := "rate limits exceeded for client".toList
          statusCode := 429, isRetryable := true } := by
  constructor
  · decide
  · decide

/-- C2: evaluating decodeError at the shape-B body with code
PRODUCT_ERROR and message "booking does not exist".  The first (shape-A)
decode succeeds structurally — Go ignores the unknown members "code" and
"message" — so decodeError returns an Error whose message and code are
empty and never reaches the shape-B branch, even though the catalog would
classify "booking does not exist" as the non-retryable
ErrBookingDoesNotExist exactly as the claim expects. -/
theorem C2_shapeB_eval :
    decodeError (some productShapeBBody) 400 =
      .structured
        { audit := none, code := [], message := [], statusCode := 400
          isRetryable := false } ∧
    decodeErrorMessage "booking does not exist".toList =
      .sentinel .errBookingDoesNotExist ∧
    isRetryableError (.sentinel .errBookingDoesNotExist) = false := by
  refine ⟨by decide, by decide, by decide⟩

/-- C3 counterexample: the body with the single unknown member
"unexpected" decodes successfully as shape A (unknown members are
ignored), so decodeError returns a structured Error with empty message
rather than the generic ErrUndefined sentinel. -/
theorem C3_counterexample :
    decodeError (some unexpectedShapeBody) 400 =
      .structured
        { audit := none, code := [], message := [], statusCode := 400
          isRetryable := false } ∧
    decodeError (some unexpectedShapeBody) 400 ≠ .sentinel .errUndefined := by
  refine ⟨by decide, by decide⟩

/-- C3 (amended): for every error response body without an "error" member
(in particular every body matching neither shape A nor shape B),
decodeError returns a non-retryable error; it is the generic ErrUndefined
sentinel when the body fails to decode into the shape-A struct (malformed
JSON, or a top-level value that is not an object or null), and a
structured Error with empty message — itself classified as undefined — for
object or null bodies, never a retryable error in either case. -/
theorem C3_no_error_member (b : Option Json) (st : Nat)
    (h : bodyHasErrorMember b = false) :
    (decodeError b st = .sentinel .errUndefined ∨
      decodeError b st =
        .structured
          { audit := none, code := [], message := [], statusCode := st
            isRetryable := false }) ∧
    IsErrorRetryable (decodeError b st) = false := by
  have hmsg : isRetryableError (decodeErrorMessage []) = false := by decide
  match b with
  | none => exact ⟨Or.inl rfl, rfl⟩
  | some (.null) =>
    refine ⟨Or.inr ?_, ?_⟩ <;> simp [decodeError, decodeShortError, hmsg, IsErrorRetryable]
  | some (.bool v) => exact ⟨Or.inl rfl, rfl⟩
  | some (.num n) => exact ⟨Or.inl rfl, rfl⟩
  | some (.str s) => exact ⟨Or.inl rfl, rfl⟩
  | some (.arr es) => exact ⟨Or.inl rfl, rfl⟩
  | some (.obj ms) =>
    have hms : (ms.any fun kv => jsonNameMatches kv.1 "error".toList) = false := h
    have hdec := decodeShortError_obj_of_noErrorMember ms hms
    refine ⟨Or.inr ?_, ?_⟩ <;> simp [decodeError, hdec, hmsg, IsErrorRetryable]

/-- Witness for C3: the amended statement holds at the concrete
unknown-shape body of the claim. -/
theorem C3_no_error_member_witness :
    bodyHasErrorMember (some unexpectedShapeBody) = false ∧
    ((decodeError (some unexpectedShapeBody) 400 = .sentinel .errUndefined ∨
      decodeError (some unexpectedShapeBody) 400 =
        .structured
          { audit := none, code := [], message := [], statusCode := 400
            isRetryable := false }) ∧
     IsErrorRetryable (decodeError (some unexpectedShapeBody) 400) = false) :=
  ⟨by decide, C3_no_error_member (some unexpectedShapeBody) 400 (by decide)⟩

/-- C4: evaluating the CommaSliceInt adapter at the failing input [1].
Encode yields the quoted token "1"; decode then allocates
bytes.Count(data, ",") = 0 slots for 1 segment and panics with an
index-out-of-range writing the parsed value, so decode(encode([1]))
never returns [1].  A malformed segment still fails the whole decode
with an error (no partial result), since Atoi is checked before the
out-of-range write. -/
theorem C4_roundtrip_panics :
    CommaSliceInt.MarshalJSON [1] = .ok "\"1\"".toList ∧
    CommaSliceInt.UnmarshalJSON "\"1\"".toList = .panicked ∧
    CommaSliceInt.UnmarshalJSON "\"1,a\"".toList = .failed := by
  refine ⟨by decide, by decide, by decide⟩

/-- C7 counterexample: for S = ["a"], encode produces the quoted token,
and decode splits the raw bytes quotes included, returning ["\"a\""],
not ["a"]: decode is not a left inverse of encode. -/
theorem C7_counterexample :
    CommaSliceString.UnmarshalJSON (CommaSliceString.MarshalJSON ["a".toList]) =
      .assigned ["\"a\"".toList] ∧
    CommaSliceString.UnmarshalJSON (CommaSliceString.MarshalJSON ["a".toList]) ≠
      .assigned ["a".toList] := by
  refine ⟨by decide, by decide⟩

/-- C8: an input whose Stay.ShiftDays is 6 is rejected by
ListAvailableHotels with the stay validation error before any network
dispatch, whatever the rest of the input holds, and a stay with
ShiftDays 5 passes the stay validation. -/
theorem C8_shiftDays_validation (inp : ListAvailableHotelsInput) (stay : Stay)
    (h6 : inp.stay.shiftDays = 6) (h5 : stay.shiftDays = 5) :
    ListAvailableHotels inp =
      .rejected (.fresh "ShiftDays is invalid (should <=5)".toList) ∧
    stay.Validate = none := by
  constructor
  · simp [ListAvailableHotels, ListAvailableHotelsInput.Validate, Stay.Validate, h6]
  · simp [Stay.Validate, h5]

/-- Witness for C8 at concrete inputs. -/
theorem C8_shiftDays_validation_witness :
    ListAvailableHotels
        { stay := { checkIn := "2024-04-02", checkOut := "2024-04-03", shiftDays := 6 }
          hotels := { hotelCodes := [6619, 6613] } } =
      .rejected (.fresh "ShiftDays is invalid (should <=5)".toList) ∧
    Stay.Validate { checkIn := "2024-04-02", checkOut := "2024-04-03", shiftDays := 5 } =
      none :=
  C8_shiftDays_validation
    { stay := { checkIn := "2024-04-02", checkOut := "2024-04-03", shiftDays := 6 }
      hotels := { hotelCodes := [6619, 6613] } }
    { checkIn := "2024-04-02", checkOut := "2024-04-03", shiftDays := 5 }
    rfl rfl

/-- C10: a Geolocation with zero latitude is rejected as
Latitude-required whatever its other fields hold, and one with nonzero
latitude but zero longitude is rejected as Longitude-required: the
required checks run before the radius and unit checks, so points on the
equator or prime meridian never pass validation. -/
theorem C10_zero_coordinates (geo geo2 : Geolocation)
    (hlat : geo.latitude = 0)
    (hlat2 : geo2.latitude ≠ 0) (hlon2 : geo2.longitude = 0) :
    geo.Validate =
      some (.validation { fieldName := "Latitude", required := true }) ∧
    geo2.Validate =
      some (.validation { fieldName := "Longitude", required := true }) := by
  constructor
  · simp [Geolocation.Validate, hlat]
  · simp [Geolocation.Validate, hlat2, hlon2]

/-- Witness for C10: the zero coordinates dominate even an in-range
radius violation and an out-of-enum unit. -/
theorem C10_zero_coordinates_witness :
    Geolocation.Validate { latitude := 0, longitude := 7, radius := 1000, unit := "furlong" } =
      some (.validation { fieldName := "Latitude", required := true }) ∧
    Geolocation.Validate { latitude := 7, longitude := 0, radius := 1000, unit := "furlong" } =
      some (.validation { fieldName := "Longitude", required := true }) :=
  C10_zero_coordinates
    { latitude := 0, longitude := 7, radius := 1000, unit := "furlong" }
    { latitude := 7, longitude := 0, radius := 1000, unit := "furlong" }
    rfl (by norm_num) rfl

/-- C9: on the JSON token consisting of an empty quoted string, every
adapter that funnels its input through trimUnescapeQuotes — Amount,
Coordinate, Timestamp, TimestampTZ, Datetime, Order, Distance,
FloatRate, ProcessTime — panics: strconv.Unquote yields the empty
string and the first-byte inspection str[0] is out of range, before any
descriptive decode error can be produced. -/
theorem C9_empty_token_panics :
    trimUnescapeQuotes "\"\"".toList = .panic ∧
    Amount.UnmarshalJSON "\"\"".toList = .panicked ∧
    Coordinate.UnmarshalJSON "\"\"".toList = .panicked ∧
    Timestamp.UnmarshalJSON "\"\"".toList = .panicked ∧
    TimestampTZ.UnmarshalJSON "\"\"".toList = .panicked ∧
    Datetime.UnmarshalJSON "\"\"".toList = .panicked ∧
    Order.UnmarshalJSON "\"\"".toList = .panicked ∧
    Distance.UnmarshalJSON "\"\"".toList = .panicked ∧
    FloatRate.UnmarshalJSON "\"\"".toList = .panicked ∧
    ProcessTime.UnmarshalJSON "\"\"".toList = .panicked := by
  refine ⟨by decide, by decide, by decide, by decide, by decide, by decide, by decide,
    by decide, by decide, by decide⟩

/-- Splitting a segment free of separators yields that one segment. -/
theorem goSplitP_sepFree (p : Char → Bool) (x : GoStr)
    (h : x.all (fun c => !(p c)) = true) : goSplitP p x = [x] := by
  induction x with
  | nil => rfl
  | cons c cs ih =>
    simp only [List.all_cons, Bool.and_eq_true, Bool.not_eq_true'] at h
    simp [goSplitP, h.1, ih h.2]

/-- Splitting past a leading separator-free segment peels it off. -/
theorem goSplitP_append (p : Char → Bool) (x r : GoStr) (c : Char)
    (hc : p c = true) (h : x.all (fun c => !(p c)) = true) :
    goSplitP p (x ++ c :: r) = x :: goSplitP p r := by
  induction x with
  | nil => simp [goSplitP, hc]
  | cons a as ih =>
    simp only [List.all_cons, Bool.and_eq_true, Bool.not_eq_true'] at h
    simp [goSplitP, h.1, ih h.2]

/-- `strings.Split` is a left inverse of `strings.Join` on non-empty
lists of separator-free segments. -/
theorem goSplit_goJoin (sep : Char) (xs : List GoStr) (hne : xs ≠ [])
    (h : ∀ x ∈ xs, x.all (fun c => !(c == sep)) = true) :
    goSplit sep (goJoin sep xs) = xs := by
  induction xs with
  | nil => exact absurd rfl hne
  | cons x rest ih =>
    cases rest with
    | nil => exact goSplitP_sepFree _ x (h x (by simp))
    | cons y rest2 =>
      show goSplitP _ (x ++ sep :: goJoin sep (y :: rest2)) = _
      rw [goSplitP_append _ x _ sep (by simp) (h x (by simp))]
      have := ih (by simp) (fun z hz => h z (by simp [hz]))
      simp only [goSplit] at this
      rw [this]

theorem addLastQuote_ne_nil (xs : List GoStr) (h : xs ≠ []) :
    addLastQuote xs ≠ [] := by
  match xs with
  | [x] => simp [addLastQuote]
  | x :: y :: rest => simp [addLastQuote]

theorem goJoin_addHeadQuote (sep : Char) (xs : List GoStr) (h : xs ≠ []) :
    goJoin sep (addHeadQuote xs) = '"' :: goJoin sep xs := by
  match xs with
  | [x] => rfl
  | x :: y :: rest => rfl

theorem goJoin_addLastQuote (sep : Char) (xs : List GoStr) (h : xs ≠ []) :
    goJoin sep (addLastQuote xs) = goJoin sep xs ++ ['"'] := by
  induction xs with
  | nil => exact absurd rfl h
  | cons x rest ih =>
    cases rest with
    | nil => rfl
    | cons y rest2 =>
      cases rest2 with
      | nil => simp [addLastQuote, goJoin]
      | cons z rest3 =>
        have ih2 := ih (by simp)
        simp only [addLastQuote, goJoin] at ih2 ⊢
        rw [ih2]
        simp [List.append_assoc]

theorem addLastQuote_all (p : Char → Bool) (hq : p '"' = true) (xs : List GoStr)
    (h : ∀ x ∈ xs, x.all p = true) :
    ∀ x ∈ addLastQuote xs, x.all p = true := by
  induction xs with
  | nil => simp [addLastQuote]
  | cons x rest ih =>
    cases rest with
    | nil =>
      intro z hz
      simp only [addLastQuote, List.mem_singleton] at hz
      subst hz
      simp [List.all_append, h x (by simp), hq]
    | cons y rest2 =>
      intro z hz
      simp only [addLastQuote, List.mem_cons] at hz
      rcases hz with rfl | hz
      · exact h z (by simp)
      · exact ih (fun w hw => h w (by simp [hw])) z hz

theorem addHeadQuote_all (p : Char → Bool) (hq : p '"' = true) (xs : List GoStr)
    (h : ∀ x ∈ xs, x.all p = true) :
    ∀ x ∈ addHeadQuote xs, x.all p = true := by
  cases xs with
  | nil => simp [addHeadQuote]
  | cons x rest =>
    intro z hz
    simp only [addHeadQuote, List.mem_cons] at hz
    rcases hz with rfl | hz
    · simp [h x (by simp), hq]
    · exact h z (by simp [hz])

/-- C7 (amended): CommaSliceString's decode splits the raw bytes with the
surrounding quotes still attached, so for every non-empty S of comma-free
elements, decode(encode(S)) returns S with the opening quote prepended to
the first element and the closing quote appended to the last — decode is
not a left inverse of encode. -/
theorem C7_split_keeps_quotes (S : List GoStr) (hne : S ≠ [])
    (h : ∀ x ∈ S, x.all (fun c => !(c == ',')) = true) :
    CommaSliceString.UnmarshalJSON (CommaSliceString.MarshalJSON S) =
      .assigned (addHeadQuote (addLastQuote S)) := by
  have hq : (fun c => !(c == ',')) '"' = true := by decide
  have hlast := addLastQuote_all _ hq S h
  have hall := addHeadQuote_all _ hq (addLastQuote S) hlast
  have hne2 : addHeadQuote (addLastQuote S) ≠ [] := by
    have := addLastQuote_ne_nil S hne
    cases hx : addLastQuote S with
    | nil => exact absurd hx this
    | cons x rest => simp [addHeadQuote]
  have hjoin : goJoin ',' (addHeadQuote (addLastQuote S)) =
      '"' :: goJoin ',' S ++ ['"'] := by
    rw [goJoin_addHeadQuote _ _ (addLastQuote_ne_nil S hne),
      goJoin_addLastQuote _ _ hne]
    simp
  have hsplit := goSplit_goJoin ',' _ hne2 hall
  rw [hjoin] at hsplit
  show CommaSliceString.UnmarshalJSON ('"' :: goJoin ',' S ++ ['"']) = _
  rw [CommaSliceString.UnmarshalJSON, if_neg (by simp)]
  rw [show ('"' :: goJoin ',' S ++ ['"'] : GoStr) =
    ('"' :: goJoin ',' S) ++ ['"'] from by simp] at hsplit ⊢
  rw [hsplit]

/-- Witness for C7 at S = ["a"]. -/
theorem C7_split_keeps_quotes_witness :
    CommaSliceString.UnmarshalJSON (CommaSliceString.MarshalJSON ["a".toList]) =
      .assigned (addHeadQuote (addLastQuote ["a".toList])) :=
  C7_split_keeps_quotes ["a".toList] (by simp) (by decide)

/-- The fuelled digit extraction agrees with `Nat.digits` base 10. -/
theorem natDigitsAux_eq_digits : ∀ fuel n : Nat, n ≤ fuel →
    natDigitsAux fuel n = Nat.digits 10 n := by
  intro fuel
  induction fuel with
  | zero =>
    intro n hn
    have : n = 0 := Nat.le_zero.mp hn
    subst this
    simp [natDigitsAux]
  | succ fuel ih =>
    intro n hn
    by_cases h0 : n = 0
    · subst h0; simp [natDigitsAux]
    · rw [natDigitsAux, if_neg h0,
        Nat.digits_def' (by norm_num : (1 : ℕ) < 10) (Nat.pos_of_ne_zero h0),
        ih (n / 10) ?_]
      have : n / 10 < n := Nat.div_lt_self (Nat.pos_of_ne_zero h0) (by norm_num)
      omega

theorem natDigits_eq (n : Nat) : natDigits n = Nat.digits 10 n :=
  natDigitsAux_eq_digits n n le_rfl

theorem digitChar_isGoDigit (d : Nat) (h : d < 10) :
    isGoDigit (Nat.digitChar d) = true := by
  interval_cases d <;> decide

theorem charVal_digitChar (d : Nat) (h : d < 10) :
    charVal (Nat.digitChar d) = d := by
  interval_cases d <;> decide

theorem natDecRepr_ne_nil (n : Nat) : natDecRepr n ≠ [] := by
  by_cases h0 : n = 0
  · simp [natDecRepr, h0]
  · simp [natDecRepr, h0, natDigits_eq, Nat.digits_ne_nil_iff_ne_zero]

theorem natDecRepr_all_digit (n : Nat) : (natDecRepr n).all isGoDigit = true := by
  by_cases h0 : n = 0
  · subst h0; decide
  · rw [natDecRepr, if_neg h0, natDigits_eq, List.all_eq_true]
    intro c hc
    simp only [List.mem_map, List.mem_reverse] at hc
    obtain ⟨d, hd, rfl⟩ := hc
    exact digitChar_isGoDigit d (Nat.digits_lt_base (by norm_num) hd)

theorem digitsVal_from (l : GoStr) : ∀ i : Nat,
    l.foldl (fun a c => a * 10 + charVal c) i = i * 10 ^ l.length + digitsVal l := by
  induction l with
  | nil => intro i; simp [digitsVal]
  | cons c cs ih =>
    intro i
    have h2 : digitsVal (c :: cs) = charVal c * 10 ^ cs.length + digitsVal cs := by
      show List.foldl _ (0 * 10 + charVal c) cs = _
      rw [ih (0 * 10 + charVal c)]
      ring_nf
    show List.foldl _ (i * 10 + charVal c) cs = _
    rw [ih (i * 10 + charVal c), h2, List.length_cons, pow_succ]
    ring

theorem digitsVal_append (a b : GoStr) :
    digitsVal (a ++ b) = digitsVal a * 10 ^ b.length + digitsVal b := by
  show (a ++ b).foldl _ 0 = _
  rw [List.foldl_append, digitsVal_from b]
  rfl

theorem digitsVal_replicate_zero (k : Nat) :
    digitsVal (List.replicate k '0') = 0 := by
  induction k with
  | zero => rfl
  | succ k ih =>
    show digitsVal ('0' :: List.replicate k '0') = 0
    show List.foldl _ (0 * 10 + charVal '0') _ = 0
    simpa [charVal] using ih

theorem foldl_charVal_digitChar : ∀ (l : List Nat), (∀ d ∈ l, d < 10) → ∀ i : Nat,
    List.foldl (fun a d => a * 10 + charVal (Nat.digitChar d)) i l =
      List.foldl (fun a d => a * 10 + d) i l := by
  intro l
  induction l with
  | nil => intro _ i; rfl
  | cons d ds ih =>
    intro h i
    show List.foldl _ (i * 10 + charVal (Nat.digitChar d)) ds = _
    rw [charVal_digitChar d (h d (by simp)), ih (fun e he => h e (by simp [he]))]
    rfl

theorem foldr_eq_ofDigits : ∀ l : List Nat,
    List.foldr (fun d a => a * 10 + d) 0 l = Nat.ofDigits 10 l := by
  intro l
  induction l with
  | nil => simp [Nat.ofDigits_nil]
  | cons d ds ih =>
    show List.foldr _ 0 ds * 10 + d = _
    rw [ih, Nat.ofDigits_cons]
    ring

theorem digitsVal_natDecRepr (n : Nat) : digitsVal (natDecRepr n) = n := by
  by_cases h0 : n = 0
  · subst h0; decide
  · rw [natDecRepr, if_neg h0, natDigits_eq]
    show ((Nat.digits 10 n).reverse.map Nat.digitChar).foldl _ 0 = n
    rw [List.foldl_map]
    rw [foldl_charVal_digitChar _
      (fun d hd => Nat.digits_lt_base (by norm_num) (List.mem_reverse.mp hd))]
    rw [List.foldl_reverse]
    rw [show (fun (x : Nat) (y : Nat) => y * 10 + x) = fun d a => a * 10 + d from rfl]
    rw [foldr_eq_ofDigits]
    exact Nat.ofDigits_digits 10 n

theorem natDecRepr_len_le (w n : Nat) (hw : 1 ≤ w) (h : n < 10 ^ w) :
    (natDecRepr n).length ≤ w := by
  by_cases h0 : n = 0
  · simp [natDecRepr, h0]; omega
  · rw [natDecRepr, if_neg h0, natDigits_eq]
    simp only [List.length_map, List.length_reverse]
    rw [Nat.digits_len 10 n (by norm_num) h0]
    have := (Nat.lt_pow_iff_log_lt (by norm_num : 1 < 10) h0).mp h
    omega

theorem padNat_length (w n : Nat) (hw : 1 ≤ w) (h : n < 10 ^ w) :
    (padNat w n).length = w := by
  unfold padNat
  simp only [List.length_append, List.length_replicate]
  have := natDecRepr_len_le w n hw h
  omega

theorem padNat_all_digit (w n : Nat) : (padNat w n).all isGoDigit = true := by
  unfold padNat
  rw [List.all_append, Bool.and_eq_true]
  constructor
  · rw [List.all_eq_true]
    intro c hc
    rw [List.eq_of_mem_replicate hc]
    decide
  · exact natDecRepr_all_digit n

theorem digitsVal_padNat (w n : Nat) : digitsVal (padNat w n) = n := by
  unfold padNat
  rw [digitsVal_append, digitsVal_replicate_zero, digitsVal_natDecRepr]
  simp

theorem parseNatDigits_of_digits (l : GoStr) (hne : l ≠ [])
    (h : l.all isGoDigit = true) : parseNatDigits l = some (digitsVal l) := by
  unfold parseNatDigits
  rw [if_neg (by simp [hne]), if_pos h]

theorem isGoDigit_ne (c x : Char) (h : isGoDigit c = true)
    (hx : isGoDigit x = false) : ¬c = x := by
  intro e
  subst e
  simp [h] at hx

theorem parseGoInt_of_digits (l : GoStr) (hne : l ≠ [])
    (h : l.all isGoDigit = true) : parseGoInt l = some (digitsVal l : Int) := by
  cases l with
  | nil => exact absurd rfl hne
  | cons c r =>
    have hc : isGoDigit c = true := by
      rw [List.all_cons, Bool.and_eq_true] at h
      exact h.1
    rw [parseGoInt, if_neg (isGoDigit_ne c '+' hc (by decide)),
      if_neg (isGoDigit_ne c '-' hc (by decide)),
      parseNatDigits_of_digits _ (by simp) h]
    rfl

theorem parseGoInt_neg_of_digits (l : GoStr) (hne : l ≠ [])
    (h : l.all isGoDigit = true) :
    parseGoInt ('-' :: l) = some (-(digitsVal l : Int)) := by
  rw [parseGoInt, if_neg (by decide), if_pos rfl,
    parseNatDigits_of_digits _ hne h]
  rfl

theorem isGoDigit_charSafe (c : Char) (h : isGoDigit c = true) :
    charSafeUnquoted c = true := by
  simp only [charSafeUnquoted, Bool.not_eq_true', Bool.or_eq_false_iff,
    beq_eq_false_iff_ne, ne_eq]
  exact ⟨⟨isGoDigit_ne c '"' h (by decide), isGoDigit_ne c '\\' h (by decide)⟩,
    isGoDigit_ne c '\n' h (by decide)⟩

theorem all_digit_charSafe (l : GoStr) (h : l.all isGoDigit = true) :
    l.all charSafeUnquoted = true := by
  rw [List.all_eq_true] at h ⊢
  exact fun c hc => isGoDigit_charSafe c (h c hc)

/-- A token that does not begin with a quote passes `trimUnescapeQuotes`
unchanged. -/
theorem trimUnescapeQuotes_headNotQuote (c : Char) (r : GoStr) (hc : ¬c = '"') :
    trimUnescapeQuotes (c :: r) = .ok (c :: r) := by
  rw [trimUnescapeQuotes, goUnquote]
  rw [if_neg (by simp [hc])]
  show (match (c :: r : GoStr) with
    | [] => GoResult.panic
    | c :: rest =>
      if c = '"' then (if rest.isEmpty then .panic else .ok rest.dropLast)
      else .ok (c :: rest)) = .ok (c :: r)
  simp [hc]

/-- A quoted escape-free non-empty interior is returned by
`trimUnescapeQuotes`. -/
theorem trimUnescapeQuotes_quoted (mid : GoStr) (hne : mid ≠ [])
    (hsafe : mid.all charSafeUnquoted = true) :
    trimUnescapeQuotes ('"' :: mid ++ ['"']) = .ok mid := by
  obtain ⟨c, r, rfl⟩ := List.exists_cons_of_ne_nil hne
  have hcsafe : charSafeUnquoted c = true := by
    rw [List.all_cons, Bool.and_eq_true] at hsafe
    exact hsafe.1
  have hc : ¬c = '"' := by
    simp only [charSafeUnquoted, Bool.not_eq_true', Bool.or_eq_false_iff,
      beq_eq_false_iff_ne, ne_eq] at hcsafe
    exact hcsafe.1.1
  rw [List.cons_append, trimUnescapeQuotes, goUnquote,
    if_pos (by rw [List.getLast?_concat, List.dropLast_concat, hsafe]; rfl)]
  rw [List.dropLast_concat]
  simp [hc]

theorem all_of_digit (l : GoStr) (p : Char → Bool)
    (hp : ∀ c, isGoDigit c = true → p c = true)
    (h : l.all isGoDigit = true) : l.all p = true := by
  rw [List.all_eq_true] at h ⊢
  exact fun c hc => hp c (h c hc)

theorem digit_notDot (c : Char) (h : isGoDigit c = true) :
    (!(c == '.')) = true := by
  simp only [Bool.not_eq_true', beq_eq_false_iff_ne, ne_eq]
  exact isGoDigit_ne c '.' h (by decide)

theorem digit_notExp (c : Char) (h : isGoDigit c = true) :
    (!(c == 'e' || c == 'E')) = true := by
  simp only [Bool.not_eq_true', Bool.or_eq_false_iff, beq_eq_false_iff_ne, ne_eq]
  exact ⟨isGoDigit_ne c 'e' h (by decide), isGoDigit_ne c 'E' h (by decide)⟩


theorem decimalNewFromString_noExp (s : GoStr)
    (h : goSplitP (fun c => c == 'e' || c == 'E') s = [s]) :
    decimalNewFromString s = decimalParseBase s 0 := by
  rw [decimalNewFromString, h]

theorem decimalParseBase_point (base a b : GoStr) (e : Int)
    (h : goSplit '.' base = [a, b]) :
    decimalParseBase base e = (parseGoInt (a ++ b)).map fun v => ⟨v, e - b.length⟩ := by
  rw [decimalParseBase, h]

/-- Parsing the canonical two-fraction-digit string with
`decimal.NewFromString` yields the scaled integer at exponent -2. -/
theorem decimalNewFromString_canonical (neg : Bool) (ip f : Nat) (hf : f < 100) :
    decimalNewFromString (canonicalMoney neg ip f) =
      some ⟨moneyVal neg ip f, -2⟩ := by
  have hf2 : f < 10 ^ 2 := lt_of_lt_of_le hf (by norm_num)
  have hlenPad : (padNat 2 f).length = 2 := padNat_length 2 f (by norm_num) hf2
  have hsign : ∀ p : Char → Bool, p '-' = true →
      (if neg = true then ['-'] else []).all p = true := by
    intro p hp; cases neg <;> simp [hp]
  have hallE : (canonicalMoney neg ip f).all (fun c => !(c == 'e' || c == 'E')) = true := by
    unfold canonicalMoney
    rw [List.all_append, List.all_append, List.all_cons]
    rw [hsign _ (by decide), all_of_digit _ _ digit_notExp (natDecRepr_all_digit ip),
      all_of_digit _ _ digit_notExp (padNat_all_digit 2 f)]
    rfl
  have hxdot : ((if neg = true then ['-'] else []) ++ natDecRepr ip).all
      (fun c => !(c == '.')) = true := by
    rw [List.all_append, hsign _ (by decide),
      all_of_digit _ _ digit_notDot (natDecRepr_all_digit ip)]
    rfl
  have hassoc : canonicalMoney neg ip f =
      ((if neg = true then ['-'] else []) ++ natDecRepr ip) ++ ('.' :: padNat 2 f) := by
    unfold canonicalMoney
    rw [List.append_assoc]
  have hbase : goSplit '.' (canonicalMoney neg ip f) =
      [(if neg = true then ['-'] else []) ++ natDecRepr ip, padNat 2 f] := by
    rw [hassoc]
    unfold goSplit
    rw [goSplitP_append _ _ _ '.' (by decide) hxdot]
    rw [goSplitP_sepFree _ _ (all_of_digit _ _ digit_notDot (padNat_all_digit 2 f))]
  have hall2 : (natDecRepr ip ++ padNat 2 f).all isGoDigit = true := by
    rw [List.all_append, natDecRepr_all_digit, padNat_all_digit]
    rfl
  have hne2 : natDecRepr ip ++ padNat 2 f ≠ [] := by
    intro hemp
    exact natDecRepr_ne_nil ip (List.append_eq_nil.mp hemp).1
  have hval : digitsVal (natDecRepr ip ++ padNat 2 f) = ip * 100 + f := by
    rw [digitsVal_append, digitsVal_natDecRepr, digitsVal_padNat, hlenPad]
    norm_num
  have hint : parseGoInt (((if neg = true then ['-'] else []) ++ natDecRepr ip) ++ padNat 2 f) =
      some (moneyVal neg ip f) := by
    rw [List.append_assoc]
    cases neg with
    | false =>
      show parseGoInt (natDecRepr ip ++ padNat 2 f) = _
      rw [parseGoInt_of_digits _ hne2 hall2, hval]
      simp [moneyVal]
    | true =>
      show parseGoInt ('-' :: (natDecRepr ip ++ padNat 2 f)) = _
      rw [parseGoInt_neg_of_digits _ hne2 hall2, hval]
      simp [moneyVal]
  rw [decimalNewFromString_noExp _ (goSplitP_sepFree _ _ hallE),
    decimalParseBase_point _ _ _ _ hbase, hint, hlenPad]
  simp only [Option.map_some']
  norm_num

/-- `StringFixed(2)` maps the scaled integer at exponent -2 back to the
canonical two-fraction-digit string. -/
theorem stringFixed2_canonical (neg : Bool) (ip f : Nat) (hf : f < 100)
    (hz : neg = true → 0 < ip * 100 + f) :
    stringFixed2 ⟨moneyVal neg ip f, -2⟩ = canonicalMoney neg ip f := by
  have hres : decimalRescaleNeg2 ⟨moneyVal neg ip f, -2⟩ = moneyVal neg ip f := by
    unfold decimalRescaleNeg2
    rw [if_pos (by norm_num)]
    norm_num
  have habs : (moneyVal neg ip f).natAbs = ip * 100 + f := by
    cases neg <;> simp [moneyVal] <;> omega
  have hdiv : (ip * 100 + f) / 100 = ip := by omega
  have hmod : (ip * 100 + f) % 100 = f := by omega
  unfold stringFixed2
  rw [hres, habs, hdiv, hmod]
  cases neg with
  | false =>
    rw [if_neg (by simp [moneyVal]; positivity)]
    simp [canonicalMoney]
  | true =>
    rw [if_pos (by
      have := hz rfl
      simp only [moneyVal, reduceIte]
      omega)]
    simp [canonicalMoney]

/-- C5 (amended): the Money round-trip encode(decode(s)) == s holds
exactly for the canonical strings with two fraction digits — an optional
minus (not on zero), no leading zeros, a point, exactly two fraction
digits; decode accepts any valid decimal literal but encode always emits
two fraction digits, so strings with fewer fraction digits (for example
"1.5") do not round-trip. -/
theorem C5_canonical_two_digit_roundtrip (neg : Bool) (ip f : Nat)
    (hf : f < 100) (hz : neg = true → 0 < ip * 100 + f) :
    Amount.UnmarshalJSON (canonicalMoney neg ip f) =
      .assigned ⟨moneyVal neg ip f, -2⟩ ∧
    Amount.MarshalJSON ⟨moneyVal neg ip f, -2⟩ = canonicalMoney neg ip f := by
  constructor
  · have htrim : trimUnescapeQuotes (canonicalMoney neg ip f) =
        .ok (canonicalMoney neg ip f) := by
      cases neg with
      | true =>
        exact trimUnescapeQuotes_headNotQuote '-' _ (by decide)
      | false =>
        obtain ⟨c, rest, hrep⟩ := List.exists_cons_of_ne_nil (natDecRepr_ne_nil ip)
        have hcdig : isGoDigit c = true := by
          have hall := natDecRepr_all_digit ip
          rw [hrep, List.all_cons, Bool.and_eq_true] at hall
          exact hall.1
        have hshape : canonicalMoney false ip f = c :: (rest ++ '.' :: padNat 2 f) := by
          unfold canonicalMoney
          rw [hrep]
          rfl
        rw [hshape]
        exact trimUnescapeQuotes_headNotQuote c _ (isGoDigit_ne c '"' hcdig (by decide))
    rw [Amount.UnmarshalJSON, htrim]
    simp only [decimalNewFromString_canonical neg ip f hf]
  · exact stringFixed2_canonical neg ip f hf hz

/-- Witness for C5 at the canonical string "-12.05". -/
theorem C5_canonical_two_digit_roundtrip_witness :
    Amount.UnmarshalJSON (canonicalMoney true 12 5) =
      .assigned ⟨moneyVal true 12 5, -2⟩ ∧
    Amount.MarshalJSON ⟨moneyVal true 12 5, -2⟩ = canonicalMoney true 12 5 :=
  C5_canonical_two_digit_roundtrip true 12 5 (by decide) (fun _ => by decide)

/-- C5 counterexample: "1.5" is a valid decimal string with at most two
fraction digits, but encode(decode("1.5")) = "1.50" ≠ "1.5" — the encoder
always emits exactly two fraction digits. -/
theorem C5_counterexample :
    Amount.UnmarshalJSON "1.5".toList = .assigned ⟨15, -1⟩ ∧
    Amount.MarshalJSON ⟨15, -1⟩ = "1.50".toList ∧
    "1.50".toList ≠ "1.5".toList := by
  refine ⟨by decide, by decide, by decide⟩

theorem getnumFixed_pad (w n : Nat) (r : GoStr) (hw : 1 ≤ w) (h : n < 10 ^ w) :
    getnumFixed w (padNat w n ++ r) = some (n, r) := by
  have hlen := padNat_length w n hw h
  have htake : (padNat w n ++ r).take w = padNat w n := List.take_left' hlen
  have hdrop : (padNat w n ++ r).drop w = r := List.drop_left' hlen
  rw [getnumFixed, htake, hdrop,
    if_pos (by simp [hlen, padNat_all_digit]), digitsVal_padNat]

theorem expectChar_same (c : Char) (r : GoStr) : expectChar c (c :: r) = some r := by
  simp [expectChar]

theorem expectChar_diff (c x : Char) (r : GoStr) (h : ¬x = c) :
    expectChar c (x :: r) = none := by
  simp [expectChar, h]

theorem expectChar_nil (c : Char) : expectChar c [] = none := rfl

theorem parseDatePart_fmt (y m d : Nat) (r : GoStr)
    (hy : y < 10 ^ 4) (hm : m < 10 ^ 2) (hd : d < 10 ^ 2) :
    parseDatePart (fmtDate y m d ++ r) = some (y, m, d, r) := by
  have hshape : fmtDate y m d ++ r =
      padNat 4 y ++ ('-' :: (padNat 2 m ++ ('-' :: (padNat 2 d ++ r)))) := by
    simp [fmtDate]
  rw [hshape, parseDatePart]
  rw [getnumFixed_pad 4 y _ (by norm_num) hy]
  simp only [Option.bind_eq_bind, Option.some_bind]
  rw [expectChar_same]
  simp only [Option.some_bind]
  rw [getnumFixed_pad 2 m _ (by norm_num) hm]
  simp only [Option.some_bind]
  rw [expectChar_same]
  simp only [Option.some_bind]
  rw [getnumFixed_pad 2 d _ (by norm_num) hd]
  simp only [Option.some_bind]

theorem parseClockPart_fmt (h mi s : Nat) (r : GoStr)
    (hh : h < 10 ^ 2) (hmi : mi < 10 ^ 2) (hs : s < 10 ^ 2) :
    parseClockPart (fmtClock h mi s ++ r) = some (h, mi, s, r) := by
  have hshape : fmtClock h mi s ++ r =
      padNat 2 h ++ (':' :: (padNat 2 mi ++ (':' :: (padNat 2 s ++ r)))) := by
    simp [fmtClock]
  rw [hshape, parseClockPart]
  rw [getnumFixed_pad 2 h _ (by norm_num) hh]
  simp only [Option.bind_eq_bind, Option.some_bind]
  rw [expectChar_same]
  simp only [Option.some_bind]
  rw [getnumFixed_pad 2 mi _ (by norm_num) hmi]
  simp only [Option.some_bind]
  rw [expectChar_same]
  simp only [Option.some_bind]
  rw [getnumFixed_pad 2 s _ (by norm_num) hs]
  simp only [Option.some_bind]

theorem parseClockOffset_fmt (a : Nat) (r : GoStr) (ha : a ≤ 1439) :
    parseClockOffset (padNat 2 (a / 60) ++ ':' :: padNat 2 (a % 60) ++ r) =
      some (a, r) := by
  have h1 : a / 60 < 10 ^ 2 := by omega
  have h2 : a % 60 < 10 ^ 2 := by omega
  have hshape : padNat 2 (a / 60) ++ ':' :: padNat 2 (a % 60) ++ r =
      padNat 2 (a / 60) ++ (':' :: (padNat 2 (a % 60) ++ r)) := by
    simp
  rw [hshape, parseClockOffset]
  rw [getnumFixed_pad 2 _ _ (by norm_num) h1]
  simp only [Option.bind_eq_bind, Option.some_bind]
  rw [expectChar_same]
  simp only [Option.some_bind]
  rw [getnumFixed_pad 2 _ _ (by norm_num) h2]
  simp only [Option.some_bind]
  have : a / 60 * 60 + a % 60 = a := by omega
  rw [this]

theorem parseOffset_fmt (off : Int) (r : GoStr)
    (hlo : -1439 ≤ off) (hhi : off ≤ 1439) :
    parseOffset (fmtOffset off ++ r) = some (off, r) := by
  by_cases h0 : off = 0
  · subst h0
    simp [fmtOffset, parseOffset]
  · have habs : off.natAbs ≤ 1439 := by omega
    by_cases hneg : off < 0
    · have hshape : fmtOffset off ++ r =
          '-' :: (padNat 2 (off.natAbs / 60) ++ ':' :: padNat 2 (off.natAbs % 60) ++ r) := by
        simp [fmtOffset, h0, hneg]
      rw [hshape, parseOffset]
      rw [if_neg (by decide), if_neg (by decide), if_pos rfl]
      rw [parseClockOffset_fmt _ _ habs]
      simp only [Option.map_some']
      have : -(off.natAbs : Int) = off := by omega
      rw [this]
    · have hshape : fmtOffset off ++ r =
          '+' :: (padNat 2 (off.natAbs / 60) ++ ':' :: padNat 2 (off.natAbs % 60) ++ r) := by
        simp [fmtOffset, h0, hneg]
      rw [hshape, parseOffset]
      rw [if_neg (by decide), if_pos rfl]
      rw [parseClockOffset_fmt _ _ habs]
      simp only [Option.map_some']
      have : ((off.natAbs : Int)) = off := by omega
      rw [this]

theorem fmtDate_safe (y m d : Nat) : (fmtDate y m d).all charSafeUnquoted = true := by
  simp [fmtDate, List.all_append,
    all_digit_charSafe _ (padNat_all_digit 4 y),
    all_digit_charSafe _ (padNat_all_digit 2 m),
    all_digit_charSafe _ (padNat_all_digit 2 d)]
  decide

theorem fmtClock_safe (h mi s : Nat) : (fmtClock h mi s).all charSafeUnquoted = true := by
  simp [fmtClock, List.all_append,
    all_digit_charSafe _ (padNat_all_digit 2 h),
    all_digit_charSafe _ (padNat_all_digit 2 mi),
    all_digit_charSafe _ (padNat_all_digit 2 s)]
  decide

theorem fmtOffset_safe (off : Int) : (fmtOffset off).all charSafeUnquoted = true := by
  unfold fmtOffset
  by_cases h0 : off = 0
  · simp [h0]
    decide
  · by_cases hneg : off < 0 <;>
      simp [h0, hneg, List.all_append,
        all_digit_charSafe _ (padNat_all_digit 2 (off.natAbs / 60)),
        all_digit_charSafe _ (padNat_all_digit 2 (off.natAbs % 60))] <;>
      exact ⟨by decide, by decide⟩

theorem fmtDate_ne_nil (y m d : Nat) : fmtDate y m d ≠ [] := by
  simp [fmtDate]

theorem daysInMonth_le (y m : Nat) : daysInMonth y m ≤ 31 := by
  unfold daysInMonth
  split_ifs <;> norm_num

theorem dateBounds (y m dd : Nat) (h : GoDate.valid ⟨y, m, dd⟩ = true) :
    y < 10 ^ 4 ∧ m < 10 ^ 2 ∧ dd < 10 ^ 2 := by
  simp only [GoDate.valid, Bool.and_eq_true, decide_eq_true_eq] at h
  obtain ⟨⟨⟨⟨h1, h2⟩, h3⟩, h4⟩, h5⟩ := h
  have h6 := daysInMonth_le y m
  refine ⟨lt_of_le_of_lt h1 (by norm_num), lt_of_le_of_lt h3 (by norm_num),
    lt_of_le_of_lt (le_trans h5 h6) (by norm_num)⟩

/-- C6: for every value in the domain each of the three layouts
represents — a valid date for Datetime, a valid wall-clock time with
millisecond precision for Timestamp, a valid wall-clock time with a zone
offset for TimestampTZ — decode(encode(v)) returns exactly v; and feeding
the encoding of any layout to the decoder of a different layout fails
with a decode error, in all six directed combinations. -/
theorem C6_layout_roundtrips (d : GoDate) (t : GoTimestamp) (z : GoTimestampTZ)
    (hd : d.valid = true) (ht : t.valid = true) (hz : z.valid = true) :
    (Datetime.UnmarshalJSON (Datetime.MarshalJSON d) = .assigned d ∧
     Timestamp.UnmarshalJSON (Timestamp.MarshalJSON t) = .assigned t ∧
     TimestampTZ.UnmarshalJSON (TimestampTZ.MarshalJSON z) = .assigned z) ∧
    (Timestamp.UnmarshalJSON (Datetime.MarshalJSON d) = .failed ∧
     TimestampTZ.UnmarshalJSON (Datetime.MarshalJSON d) = .failed ∧
     Datetime.UnmarshalJSON (Timestamp.MarshalJSON t) = .failed ∧
     TimestampTZ.UnmarshalJSON (Timestamp.MarshalJSON t) = .failed ∧
     Datetime.UnmarshalJSON (TimestampTZ.MarshalJSON z) = .failed ∧
     Timestamp.UnmarshalJSON (TimestampTZ.MarshalJSON z) = .failed) := by
  obtain ⟨hdy, hdm, hdd⟩ := dateBounds d.year d.month d.day hd
  have ht2 := ht
  simp only [GoTimestamp.valid, Bool.and_eq_true, decide_eq_true_eq] at ht2
  obtain ⟨⟨⟨⟨htdate, hth⟩, htmi⟩, hts⟩, htms⟩ := ht2
  obtain ⟨hty, htm, htd⟩ := dateBounds t.year t.month t.day htdate
  have hth2 : t.hour < 10 ^ 2 := lt_of_le_of_lt hth (by norm_num)
  have htmi2 : t.minute < 10 ^ 2 := lt_of_le_of_lt htmi (by norm_num)
  have hts2 : t.second < 10 ^ 2 := lt_of_le_of_lt hts (by norm_num)
  have htms3 : t.milli < 10 ^ 3 := lt_of_le_of_lt htms (by norm_num)
  have hz2 := hz
  simp only [GoTimestampTZ.valid, Bool.and_eq_true, decide_eq_true_eq] at hz2
  obtain ⟨⟨⟨⟨⟨hzdate, hzh⟩, hzmi⟩, hzs⟩, hzlo⟩, hzhi⟩ := hz2
  obtain ⟨hzy, hzm, hzd⟩ := dateBounds z.year z.month z.day hzdate
  have hzh2 : z.hour < 10 ^ 2 := lt_of_le_of_lt hzh (by norm_num)
  have hzmi2 : z.minute < 10 ^ 2 := lt_of_le_of_lt hzmi (by norm_num)
  have hzs2 : z.second < 10 ^ 2 := lt_of_le_of_lt hzs (by norm_num)
  have hzlo2 : -1439 ≤ z.offset := by omega
  have hzhi2 : z.offset ≤ 1439 := by omega
  -- date-layout parse facts
  have hpD : parseDatePart (fmtDate d.year d.month d.day) =
      some (d.year, d.month, d.day, []) := by
    have := parseDatePart_fmt d.year d.month d.day [] hdy hdm hdd
    rwa [List.append_nil] at this
  have hParseD : goParseDatetime (fmtDate d.year d.month d.day) = some d := by
    rw [goParseDatetime, hpD]
    simp [hd]
  have hXtd : goParseTimestamp (fmtDate d.year d.month d.day) = none := by
    rw [goParseTimestamp, hpD]
    simp [expectChar]
  have hXzd : goParseTimestampTZ (fmtDate d.year d.month d.day) = none := by
    rw [goParseTimestampTZ, hpD]
    simp [expectChar]
  -- timestamp-layout parse facts
  have hpDt : parseDatePart (fmtDate t.year t.month t.day ++
      ' ' :: (fmtClock t.hour t.minute t.second ++ '.' :: padNat 3 t.milli)) =
      some (t.year, t.month, t.day,
        ' ' :: (fmtClock t.hour t.minute t.second ++ '.' :: padNat 3 t.milli)) :=
    parseDatePart_fmt t.year t.month t.day _ hty htm htd
  have hpCt : parseClockPart (fmtClock t.hour t.minute t.second ++
      '.' :: padNat 3 t.milli) =
      some (t.hour, t.minute, t.second, '.' :: padNat 3 t.milli) :=
    parseClockPart_fmt t.hour t.minute t.second _ hth2 htmi2 hts2
  have hnum3 : getnumFixed 3 (padNat 3 t.milli) = some (t.milli, []) := by
    have := getnumFixed_pad 3 t.milli [] (by norm_num) htms3
    rwa [List.append_nil] at this
  have hParseT : goParseTimestamp (fmtDate t.year t.month t.day ++
      ' ' :: (fmtClock t.hour t.minute t.second ++ '.' :: padNat 3 t.milli)) =
      some t := by
    rw [goParseTimestamp, hpDt]
    simp [expectChar_same, hpCt, hnum3, ht]
  have hXdt : goParseDatetime (fmtDate t.year t.month t.day ++
      ' ' :: (fmtClock t.hour t.minute t.second ++ '.' :: padNat 3 t.milli)) = none := by
    rw [goParseDatetime, hpDt]
    simp
  have hXzt : goParseTimestampTZ (fmtDate t.year t.month t.day ++
      ' ' :: (fmtClock t.hour t.minute t.second ++ '.' :: padNat 3 t.milli)) = none := by
    rw [goParseTimestampTZ, hpDt]
    simp [expectChar]
  -- rfc3339-layout parse facts
  have hpDz : parseDatePart (fmtDate z.year z.month z.day ++
      'T' :: (fmtClock z.hour z.minute z.second ++ fmtOffset z.offset)) =
      some (z.year, z.month, z.day,
        'T' :: (fmtClock z.hour z.minute z.second ++ fmtOffset z.offset)) :=
    parseDatePart_fmt z.year z.month z.day _ hzy hzm hzd
  have hpCz : parseClockPart (fmtClock z.hour z.minute z.second ++ fmtOffset z.offset) =
      some (z.hour, z.minute, z.second, fmtOffset z.offset) :=
    parseClockPart_fmt z.hour z.minute z.second _ hzh2 hzmi2 hzs2
  have hpOz : parseOffset (fmtOffset z.offset) = some (z.offset, []) := by
    have := parseOffset_fmt z.offset [] hzlo2 hzhi2
    rwa [List.append_nil] at this
  have hParseZ : goParseTimestampTZ (fmtDate z.year z.month z.day ++
      'T' :: (fmtClock z.hour z.minute z.second ++ fmtOffset z.offset)) = some z := by
    rw [goParseTimestampTZ, hpDz]
    simp [expectChar_same, hpCz, hpOz, hz]
  have hXdz : goParseDatetime (fmtDate z.year z.month z.day ++
      'T' :: (fmtClock z.hour z.minute z.second ++ fmtOffset z.offset)) = none := by
    rw [goParseDatetime, hpDz]
    simp
  have hXtz : goParseTimestamp (fmtDate z.year z.month z.day ++
      'T' :: (fmtClock z.hour z.minute z.second ++ fmtOffset z.offset)) = none := by
    rw [goParseTimestamp, hpDz]
    simp [expectChar]
  -- trimming each marshalled token recovers the layout body
  have trimD : trimUnescapeQuotes (Datetime.MarshalJSON d) =
      .ok (fmtDate d.year d.month d.day) :=
    trimUnescapeQuotes_quoted _ (fmtDate_ne_nil _ _ _) (fmtDate_safe _ _ _)
  have tsSafe : (fmtDate t.year t.month t.day ++
      ' ' :: (fmtClock t.hour t.minute t.second ++ '.' :: padNat 3 t.milli)).all
      charSafeUnquoted = true := by
    simp [List.all_append, fmtDate_safe, fmtClock_safe,
      all_digit_charSafe _ (padNat_all_digit 3 t.milli)]
    decide
  have tsNeNil : fmtDate t.year t.month t.day ++
      ' ' :: (fmtClock t.hour t.minute t.second ++ '.' :: padNat 3 t.milli) ≠ [] := by
    simp [fmtDate]
  have trimT : trimUnescapeQuotes (Timestamp.MarshalJSON t) =
      .ok (fmtDate t.year t.month t.day ++
        ' ' :: (fmtClock t.hour t.minute t.second ++ '.' :: padNat 3 t.milli)) :=
    trimUnescapeQuotes_quoted _ tsNeNil tsSafe
  have tzSafe : (fmtDate z.year z.month z.day ++
      'T' :: (fmtClock z.hour z.minute z.second ++ fmtOffset z.offset)).all
      charSafeUnquoted = true := by
    simp [List.all_append, fmtDate_safe, fmtClock_safe, fmtOffset_safe]
    decide
  have tzNeNil : fmtDate z.year z.month z.day ++
      'T' :: (fmtClock z.hour z.minute z.second ++ fmtOffset z.offset) ≠ [] := by
    simp [fmtDate]
  have trimZ : trimUnescapeQuotes (TimestampTZ.MarshalJSON z) =
      .ok (fmtDate z.year z.month z.day ++
        'T' :: (fmtClock z.hour z.minute z.second ++ fmtOffset z.offset)) :=
    trimUnescapeQuotes_quoted _ tzNeNil tzSafe
  refine ⟨⟨?_, ?_, ?_⟩, ?_, ?_, ?_, ?_, ?_, ?_⟩
  · rw [Datetime.UnmarshalJSON, trimD]
    simp [hParseD]
  · rw [Timestamp.UnmarshalJSON, trimT]
    simp [hParseT]
  · rw [TimestampTZ.UnmarshalJSON, trimZ]
    simp [hParseZ]
  · rw [Timestamp.UnmarshalJSON, trimD]
    simp [hXtd]
  · rw [TimestampTZ.UnmarshalJSON, trimD]
    simp [hXzd]
  · rw [Datetime.UnmarshalJSON, trimT]
    simp [hXdt]
  · rw [TimestampTZ.UnmarshalJSON, trimT]
    simp [hXzt]
  · rw [Datetime.UnmarshalJSON, trimZ]
    simp [hXdz]
  · rw [Timestamp.UnmarshalJSON, trimZ]
    simp [hXtz]

/-- Witness for C6 at 2024-04-02, 2024-04-02 10:30:05.123 and
2024-04-02T10:30:05+02:00. -/
theorem C6_layout_roundtrips_witness :
    (Datetime.UnmarshalJSON (Datetime.MarshalJSON ⟨2024, 4, 2⟩) =
        .assigned ⟨2024, 4, 2⟩ ∧
     Timestamp.UnmarshalJSON (Timestamp.MarshalJSON ⟨2024, 4, 2, 10, 30, 5, 123⟩) =
        .assigned ⟨2024, 4, 2, 10, 30, 5, 123⟩ ∧
     TimestampTZ.UnmarshalJSON (TimestampTZ.MarshalJSON ⟨2024, 4, 2, 10, 30, 5, 120⟩) =
        .assigned ⟨2024, 4, 2, 10, 30, 5, 120⟩) ∧
    (Timestamp.UnmarshalJSON (Datetime.MarshalJSON ⟨2024, 4, 2⟩) = .failed ∧
     TimestampTZ.UnmarshalJSON (Datetime.MarshalJSON ⟨2024, 4, 2⟩) = .failed ∧
     Datetime.UnmarshalJSON (Timestamp.MarshalJSON ⟨2024, 4, 2, 10, 30, 5, 123⟩) = .failed ∧
     TimestampTZ.UnmarshalJSON (Timestamp.MarshalJSON ⟨2024, 4, 2, 10, 30, 5, 123⟩) = .failed ∧
     Datetime.UnmarshalJSON (TimestampTZ.MarshalJSON ⟨2024, 4, 2, 10, 30, 5, 120⟩) = .failed ∧
     Timestamp.UnmarshalJSON (TimestampTZ.MarshalJSON ⟨2024, 4, 2, 10, 30, 5, 120⟩) = .failed) :=
  C6_layout_roundtrips ⟨2024, 4, 2⟩ ⟨2024, 4, 2, 10, 30, 5, 123⟩
    ⟨2024, 4, 2, 10, 30, 5, 120⟩ (by decide) (by decide) (by decide)
